import Mathlib

/-!
Shallow embedding of the `onezeromb` chat backend (src/server.js and the
near-duplicate revision src/unnamed/part_000): the Mongo-backed credential
directory (`User` model), the socket.io relay gateway, and the presence
broadcaster, together with theorems settling the specification claims.
-/

namespace OneZeroMB

/-- A credential record as persisted by the `User` Mongoose model
(src/server.js lines 45-49): `{username, finalHash, createdAt}`. -/
structure UserRec where
  username : String
  finalHash : String
  createdAt : Nat
  deriving Repr, DecidableEq

/-- A live socket connection as seen by the gateway: the socket id and the
identity token taken from `socket.handshake.auth.token` (src/server.js
lines 151-152). -/
structure Conn where
  cid : Nat
  token : String
  deriving Repr, DecidableEq

/-- JS truthiness test used by the routes on an optional string field:
`!x` holds exactly when the field is absent (`undefined`) or the empty
string. -/
def strFalsy : Option String → Bool
  | none => true
  | some s => s == ""

/-- Payloads of the events the server emits to individual sockets. -/
inductive Payload where
  | counts (registered online : Nat)
  | msg (data : String)
  | img (data : String)
  | connError (m : String)
  deriving Repr, DecidableEq

/-- Whether a payload is a `user_counts` presence payload. -/
def Payload.isCounts : Payload → Bool
  | .counts _ _ => true
  | _ => false

/-- A single event delivered to one socket (`target` is the socket id). -/
structure Event where
  target : Nat
  payload : Payload
  deriving Repr, DecidableEq

/-- Server state: the credential directory (the Mongo `User` collection)
and the connection registry (the set of connected sockets). -/
structure ServerState where
  dir : List UserRec
  registry : List Conn
  deriving Repr, DecidableEq

/-- `broadcastUserCounts` (src/server.js lines 61-70): reads
`User.countDocuments()` and `io.engine.clientsCount`, then
`io.emit("user_counts", {registered, online})` to every connected socket.
When the count query fails (`dbFail = true`) the error is caught and
logged and nothing is emitted. -/
def broadcastUserCounts (dbFail : Bool) (dir : List UserRec) (reg : List Conn) :
    List Event :=
  if dbFail then []
  else reg.map (fun c => ⟨c.cid, .counts dir.length reg.length⟩)

/-- HTTP responses of the routes, identified by status code and the
`success` flag of the JSON body. -/
inductive Resp where
  | missingFields
  | duplicate
  | created
  | invalidCred
  | signedIn (username : String)
  | invalidList
  | deleted (n : Nat)
  | noneDeleted
  deriving Repr, DecidableEq

/-- HTTP status code of a response. -/
def Resp.status : Resp → Nat
  | .missingFields => 400
  | .duplicate => 409
  | .created => 200
  | .invalidCred => 401
  | .signedIn _ => 200
  | .invalidList => 400
  | .deleted _ => 200
  | .noneDeleted => 404

/-- The `success` field of the JSON body of a response. -/
def Resp.ok : Resp → Bool
  | .created => true
  | .signedIn _ => true
  | .deleted _ => true
  | _ => false

/-- `User.findOne({username})` (src/server.js line 89). -/
def findOneByUsername (dir : List UserRec) (u : String) : Option UserRec :=
  dir.find? (fun r => r.username == u)

/-- `User.findOne({username, finalHash})` (src/server.js line 114): exact
equality on both fields. -/
def findOneMatch (dir : List UserRec) (u h : String) : Option UserRec :=
  dir.find? (fun r => r.username == u && r.finalHash == h)

/-- `POST /signup` (src/server.js lines 82-104). Returns the response, the
directory afterwards, and the events emitted by the triggered broadcast.
`now` is the `createdAt` default; `dbFail` models a failing count query
inside the fire-and-forget `broadcastUserCounts()`. -/
def signup (dir : List UserRec) (reg : List Conn) (username final_hash : Option String)
    (now : Nat) (dbFail : Bool) : Resp × List UserRec × List Event :=
  if strFalsy username || strFalsy final_hash then (.missingFields, dir, [])
  else
    match findOneByUsername dir (username.getD "") with
    | some _ => (.duplicate, dir, [])
    | none =>
      let dir2 := dir ++ [⟨username.getD "", final_hash.getD "", now⟩]
      (.created, dir2, broadcastUserCounts dbFail dir2 reg)

/-- `POST /signin` (src/server.js lines 107-126). Returns the response and
the directory afterwards (the route performs no write). -/
def signin (dir : List UserRec) (username final_hash : Option String) :
    Resp × List UserRec :=
  if strFalsy username || strFalsy final_hash then (.missingFields, dir)
  else
    match findOneMatch dir (username.getD "") (final_hash.getD "") with
    | none => (.invalidCred, dir)
    | some r => (.signedIn r.username, dir)

/-- `POST /admin/delete-users` (src/server.js lines 323-345):
`User.deleteMany({username: {$in: usernames}})`, success with the deleted
count when positive, 404 when zero, 400 on a missing or empty list. -/
def deleteUsers (dir : List UserRec) (reg : List Conn) (usernames : Option (List String))
    (dbFail : Bool) : Resp × List UserRec × List Event :=
  match usernames with
  | none => (.invalidList, dir, [])
  | some us =>
    if us.length == 0 then (.invalidList, dir, [])
    else
      let deletedCount := (dir.filter (fun r => us.contains r.username)).length
      let dir2 := dir.filter (fun r => !(us.contains r.username))
      if 0 < deletedCount then
        (.deleted deletedCount, dir2, broadcastUserCounts dbFail dir2 reg)
      else (.noneDeleted, dir2, [])

/-- Outcome of the `io.use` authentication gate. -/
inductive GateResult where
  | admitted (token : String)
  | rejected (err : String)
  deriving Repr, DecidableEq

/-- The `io.use` middleware (src/server.js lines 145-149):
`if (!token) return next(new Error("NO_TOKEN")); next();`. For a string
token `!token` holds exactly when the token is absent or empty. -/
def ioUseGate (token : Option String) : GateResult :=
  match token with
  | none => .rejected "NO_TOKEN"
  | some t => if t == "" then .rejected "NO_TOKEN" else .admitted t

/-- A connection attempt: the gate runs first; on admission the socket
joins the registry and `broadcastUserCounts()` fires (src/server.js lines
151-155); on rejection the socket only receives the connection error. -/
def connect (st : ServerState) (cid : Nat) (token : Option String) (dbFail : Bool) :
    ServerState × List Event :=
  match ioUseGate token with
  | .rejected e => (st, [⟨cid, .connError e⟩])
  | .admitted t =>
    let st2 : ServerState := ⟨st.dir, st.registry ++ [⟨cid, t⟩]⟩
    (st2, broadcastUserCounts dbFail st2.dir st2.registry)

/-- `socket.on("send_message")` (src/server.js lines 157-159):
`socket.broadcast.emit("receive_message", data)` delivers the payload
unchanged to every connected socket except the sender. -/
def sendMessage (st : ServerState) (sender : Nat) (data : String) : List Event :=
  (st.registry.filter (fun c => c.cid != sender)).map (fun c => ⟨c.cid, .msg data⟩)

/-- `socket.on("send_image")` (src/server.js lines 161-163). -/
def sendImage (st : ServerState) (sender : Nat) (data : String) : List Event :=
  (st.registry.filter (fun c => c.cid != sender)).map (fun c => ⟨c.cid, .img data⟩)

/-- Disconnect handler of the `src/server.js` revision (lines 165-168):
`broadcastUserCounts()` is invoked synchronously, i.e. with zero delay. -/
def disconnectDelayMs_serverjs : Nat := 0

/-- Disconnect handler of the `src/unnamed/part_000` revision (lines
172-176): `setTimeout(broadcastUserCounts, 1000)`. -/
def disconnectDelayMs_part000 : Nat := 1000

/-- A disconnect at time `now`: the socket leaves the registry and one
broadcast of its own is appended to the pending-timer list, due at
`now + delay`; pending timers are never cancelled or coalesced. -/
def onDisconnect (delay : Nat) (st : ServerState) (cid : Nat) (now : Nat)
    (pending : List Nat) : ServerState × List Nat :=
  (⟨st.dir, st.registry.filter (fun c => c.cid != cid)⟩, pending ++ [now + delay])

/-- C1: a connection is admitted iff the handshake token is a non-empty
string; a missing or empty token is rejected with `NO_TOKEN`, the registry
is unchanged, the rejected socket only ever receives the connection error,
and broadcasts target only registry members, so a never-admitted socket
never receives a broadcast event. -/
theorem C1_admission_iff_nonempty_token (st : ServerState) (cid : Nat)
    (token : Option String) (dbFail : Bool) :
    ((∃ t, ioUseGate token = .admitted t) ↔ ∃ s, token = some s ∧ s ≠ "") ∧
    (strFalsy token = true →
      ioUseGate token = .rejected "NO_TOKEN" ∧
      (connect st cid token dbFail).1 = st ∧
      (connect st cid token dbFail).2 = [⟨cid, .connError "NO_TOKEN"⟩]) ∧
    (∀ (f : Bool) (dir : List UserRec) (reg : List Conn),
      (∀ c ∈ reg, c.cid ≠ cid) →
      ∀ e ∈ broadcastUserCounts f dir reg, e.target ≠ cid) := by
  refine ⟨?_, ?_, ?_⟩
  · cases token with
    | none => simp [ioUseGate]
    | some t =>
      by_cases ht : t = ""
      · subst ht; simp [ioUseGate]
      · simp [ioUseGate, ht]
  · intro hf
    cases token with
    | none => exact ⟨rfl, rfl, rfl⟩
    | some t =>
      have ht : t = "" := by simpa [strFalsy] using hf
      subst ht
      exact ⟨rfl, rfl, rfl⟩
  · intro f dir reg hreg e he
    unfold broadcastUserCounts at he
    split at he
    · simp at he
    · obtain ⟨c, hc, rfl⟩ := List.mem_map.mp he
      simpa using hreg c hc

/-- Witness for C1: the empty token is rejected, leaves the state alone,
and a broadcast over a registry not containing the socket never targets
it. -/
theorem C1_witness :
    ioUseGate (some "") = .rejected "NO_TOKEN" ∧
    (connect ⟨[], []⟩ 7 (some "") false).1 = (⟨[], []⟩ : ServerState) ∧
    (⟨3, Payload.counts 0 1⟩ : Event).target ≠ 7 := by
  have h := C1_admission_iff_nonempty_token ⟨[], []⟩ 7 (some "") false
  exact ⟨(h.2.1 rfl).1, (h.2.1 rfl).2.1,
    h.2.2 false [] [⟨3, "alice"⟩] (by decide) ⟨3, Payload.counts 0 1⟩ (by decide)⟩

/-- C2: `send_message`/`send_image` from socket `A` delivers the payload
unchanged to every other connected socket and never back to `A`. -/
theorem C2_fanout_excludes_sender (st : ServerState) (A : Nat) (p : String) :
    (∀ c ∈ st.registry, c.cid ≠ A →
      (⟨c.cid, .msg p⟩ : Event) ∈ sendMessage st A p ∧
      (⟨c.cid, .img p⟩ : Event) ∈ sendImage st A p) ∧
    (∀ e ∈ sendMessage st A p, e.target ≠ A ∧ e.payload = .msg p) ∧
    (∀ e ∈ sendImage st A p, e.target ≠ A ∧ e.payload = .img p) := by
  refine ⟨?_, ?_, ?_⟩
  · intro c hc hne
    constructor
    · simp only [sendMessage, List.mem_map]
      exact ⟨c, List.mem_filter.mpr ⟨hc, by simpa using hne⟩, rfl⟩
    · simp only [sendImage, List.mem_map]
      exact ⟨c, List.mem_filter.mpr ⟨hc, by simpa using hne⟩, rfl⟩
  · intro e he
    simp only [sendMessage, List.mem_map] at he
    obtain ⟨c, hc, rfl⟩ := he
    have h2 := (List.mem_filter.mp hc).2
    exact ⟨by simpa using h2, rfl⟩
  · intro e he
    simp only [sendImage, List.mem_map] at he
    obtain ⟨c, hc, rfl⟩ := he
    have h2 := (List.mem_filter.mp hc).2
    exact ⟨by simpa using h2, rfl⟩

/-- Witness for C2: with sockets 1 and 2 connected, a message sent by 1 is
delivered to 2 as `receive_message` with the same payload. -/
theorem C2_witness :
    (⟨2, Payload.msg "hi"⟩ : Event) ∈ sendMessage ⟨[], [⟨1, "a"⟩, ⟨2, "b"⟩]⟩ 1 "hi" ∧
    (⟨2, Payload.img "hi"⟩ : Event) ∈ sendImage ⟨[], [⟨1, "a"⟩, ⟨2, "b"⟩]⟩ 1 "hi" :=
  (C2_fanout_excludes_sender ⟨[], [⟨1, "a"⟩, ⟨2, "b"⟩]⟩ 1 "hi").1 ⟨2, "b"⟩
    (by decide) (by decide)

/-- C3: authentication succeeds exactly when a record matches both the
username and the hash by exact string equality, a success returns that
username, both failure cases map to the single `invalidCred` response,
and the directory is left unchanged. -/
theorem C3_authenticate_exact_match (dir : List UserRec) (u h : String) :
    ((findOneMatch dir u h).isSome ↔ ∃ r ∈ dir, r.username = u ∧ r.finalHash = h) ∧
    (∀ r, findOneMatch dir u h = some r → r.username = u ∧ r.finalHash = h) ∧
    (u ≠ "" → h ≠ "" →
      (((signin dir (some u) (some h)).1 = .signedIn u) ↔
        ∃ r ∈ dir, r.username = u ∧ r.finalHash = h) ∧
      (findOneMatch dir u h = none → (signin dir (some u) (some h)).1 = .invalidCred) ∧
      (signin dir (some u) (some h)).2 = dir) := by
  have hmem : ∀ r, findOneMatch dir u h = some r → r.username = u ∧ r.finalHash = h := by
    intro r hr
    have hp := List.find?_some hr
    simpa [Bool.and_eq_true, beq_iff_eq] using hp
  have hsome : (findOneMatch dir u h).isSome ↔
      ∃ r ∈ dir, r.username = u ∧ r.finalHash = h := by
    simp [findOneMatch, List.find?_isSome, Bool.and_eq_true, beq_iff_eq]
  refine ⟨hsome, hmem, ?_⟩
  intro hu hh
  have hsf : strFalsy (some u) = false := by simpa [strFalsy] using hu
  have hsf2 : strFalsy (some h) = false := by simpa [strFalsy] using hh
  cases hfm : findOneMatch dir u h with
  | none =>
    have hred : signin dir (some u) (some h) = (Resp.invalidCred, dir) := by
      simp [signin, hsf, hsf2, hfm]
    refine ⟨?_, fun _ => by rw [hred], by rw [hred]⟩
    constructor
    · intro habs
      rw [hred] at habs
      simp at habs
    · intro hex
      have hs := hsome.mpr hex
      rw [hfm] at hs
      simp at hs
  | some r =>
    have hr := hmem r hfm
    have hred : signin dir (some u) (some h) = (Resp.signedIn r.username, dir) := by
      simp [signin, hsf, hsf2, hfm]
    refine ⟨?_, ?_, by rw [hred]⟩
    · constructor
      · intro _
        exact ⟨r, List.mem_of_find?_eq_some hfm, hr⟩
      · intro _
        rw [hred]
        simp [hr.1]
    · intro hcontra
      simp at hcontra

/-- Witness for C3: a matching pair signs in returning the username, and a
wrong hash for an existing user yields the generic failure. -/
theorem C3_witness :
    (signin [⟨"alice", "h1", 0⟩] (some "alice") (some "h1")).1 = .signedIn "alice" ∧
    (signin [⟨"alice", "h1", 0⟩] (some "alice") (some "h2")).1 = .invalidCred := by
  have h1 := C3_authenticate_exact_match [⟨"alice", "h1", 0⟩] "alice" "h1"
  have h2 := C3_authenticate_exact_match [⟨"alice", "h1", 0⟩] "alice" "h2"
  refine ⟨?_, ?_⟩
  · exact ((h1.2.2 (by decide) (by decide)).1).mpr ⟨⟨"alice", "h1", 0⟩, by decide, rfl, rfl⟩
  · exact (h2.2.2 (by decide) (by decide)).2.1 (by decide)

/-- C4: registering a fresh username succeeds and appends exactly the new
record; registering an existing username fails with the duplicate error
and leaves the directory unchanged; hence the same username twice in
sequence gives success then duplicate. -/
theorem C4_register_then_duplicate (dir : List UserRec) (reg : List Conn)
    (u h h2 : String) (now now2 : Nat) (bf bf2 : Bool)
    (hu : u ≠ "") (hh : h ≠ "") (hh2 : h2 ≠ "") :
    ((∀ r ∈ dir, r.username ≠ u) →
      (signup dir reg (some u) (some h) now bf).1 = .created ∧
      (signup dir reg (some u) (some h) now bf).2.1 = dir ++ [⟨u, h, now⟩]) ∧
    ((∃ r ∈ dir, r.username = u) →
      (signup dir reg (some u) (some h2) now bf).1 = .duplicate ∧
      (signup dir reg (some u) (some h2) now bf).2.1 = dir) ∧
    ((∀ r ∈ dir, r.username ≠ u) →
      (signup ((signup dir reg (some u) (some h) now bf).2.1) reg
        (some u) (some h2) now2 bf2).1 = .duplicate ∧
      (signup ((signup dir reg (some u) (some h) now bf).2.1) reg
        (some u) (some h2) now2 bf2).2.1
        = (signup dir reg (some u) (some h) now bf).2.1) := by
  have hsf : strFalsy (some u) = false := by simpa [strFalsy] using hu
  have hsfh : strFalsy (some h) = false := by simpa [strFalsy] using hh
  have hsfh2 : strFalsy (some h2) = false := by simpa [strFalsy] using hh2
  have hA : (∀ r ∈ dir, r.username ≠ u) →
      (signup dir reg (some u) (some h) now bf).1 = .created ∧
      (signup dir reg (some u) (some h) now bf).2.1 = dir ++ [⟨u, h, now⟩] := by
    intro hfresh
    have hf : findOneByUsername dir u = none := by
      simp only [findOneByUsername]
      exact List.find?_eq_none.mpr (by simpa [beq_iff_eq] using hfresh)
    constructor <;> simp [signup, hsf, hsfh, hf]
  have hdup : ∀ (d : List UserRec) (hx : Option String) (nx : Nat) (bx : Bool),
      strFalsy hx = false → (∃ r ∈ d, r.username = u) →
      (signup d reg (some u) hx nx bx).1 = .duplicate ∧
      (signup d reg (some u) hx nx bx).2.1 = d := by
    intro d hx nx bx hsfx hex
    have hs : (findOneByUsername d u).isSome := by
      simp only [findOneByUsername, List.find?_isSome, beq_iff_eq]
      obtain ⟨r, hr, hru⟩ := hex
      exact ⟨r, hr, hru⟩
    obtain ⟨r0, hr0⟩ := Option.isSome_iff_exists.mp hs
    constructor <;> simp [signup, hsf, hsfx, hr0]
  refine ⟨hA, hdup dir (some h2) now bf hsfh2, ?_⟩
  intro hfresh
  have h1 := hA hfresh
  have hex : ∃ r ∈ (signup dir reg (some u) (some h) now bf).2.1, r.username = u := by
    rw [h1.2]
    exact ⟨⟨u, h, now⟩, by simp, rfl⟩
  exact hdup _ (some h2) now2 bf2 hsfh2 hex

/-- Witness for C4: registering `alice` twice on an empty directory gives
`created` then `duplicate`. -/
theorem C4_witness :
    (signup [] [] (some "alice") (some "h1") 0 false).1 = .created ∧
    (signup ((signup [] [] (some "alice") (some "h1") 0 false).2.1) []
      (some "alice") (some "h2") 1 false).1 = .duplicate := by
  have h := C4_register_then_duplicate [] [] "alice" "h1" "h2" 0 1 false false
    (by decide) (by decide) (by decide)
  exact ⟨(h.1 (by simp)).1, (h.2.2 (by simp)).1⟩

/-- C5 counterexample: a delete request whose username set matches no
record is answered with the 404 error response `noneDeleted`
(`success: false`), so a remove matching no records is an error outcome
at the route, contrary to the claim. -/
theorem C5_counterexample :
    (deleteUsers [⟨"alice", "h1", 0⟩] [] (some ["ghost"]) false).1 = .noneDeleted ∧
    Resp.ok (deleteUsers [⟨"alice", "h1", 0⟩] [] (some ["ghost"]) false).1 = false ∧
    Resp.status (deleteUsers [⟨"alice", "h1", 0⟩] [] (some ["ghost"]) false).1 = 404 := by
  decide

/-- C5 (amended): for a non-empty username list, delete removes exactly
the records whose username is listed, a reported count equals the number
of matching records, a non-existent username contributes zero to that
count, a positive count is answered with success carrying the count, but
a zero count is answered with the 404 `noneDeleted` error while the
directory stays unchanged. -/
theorem C5_remove_exact (dir : List UserRec) (reg : List Conn) (us : List String)
    (g : String) (bf : Bool) (hne : us ≠ []) :
    (deleteUsers dir reg (some us) bf).2.1
      = dir.filter (fun r => !(us.contains r.username)) ∧
    (∀ n, (deleteUsers dir reg (some us) bf).1 = .deleted n →
      n = (dir.filter (fun r => us.contains r.username)).length) ∧
    ((∀ r ∈ dir, r.username ≠ g) →
      (dir.filter (fun r => ((g :: us).contains r.username))).length
        = (dir.filter (fun r => us.contains r.username)).length) ∧
    ((dir.filter (fun r => us.contains r.username)).length = 0 →
      (deleteUsers dir reg (some us) bf).1 = .noneDeleted ∧
      (deleteUsers dir reg (some us) bf).2.1 = dir) ∧
    (0 < (dir.filter (fun r => us.contains r.username)).length →
      (deleteUsers dir reg (some us) bf).1
        = .deleted ((dir.filter (fun r => us.contains r.username)).length)) := by
  have hlen : (us.length == 0) = false := by
    simpa using hne
  have hD : deleteUsers dir reg (some us) bf =
      (if 0 < (dir.filter (fun r => us.contains r.username)).length then
        (.deleted ((dir.filter (fun r => us.contains r.username)).length),
         dir.filter (fun r => !(us.contains r.username)),
         broadcastUserCounts bf (dir.filter (fun r => !(us.contains r.username))) reg)
       else (.noneDeleted, dir.filter (fun r => !(us.contains r.username)), [])) := by
    simp [deleteUsers, hlen]
  refine ⟨?_, ?_, ?_, ?_, ?_⟩
  · rw [hD]
    split <;> rfl
  · intro n hn
    rw [hD] at hn
    rcases Nat.eq_zero_or_pos (dir.filter (fun r => us.contains r.username)).length
      with h0 | hpos
    · rw [if_neg (by omega)] at hn
      simp at hn
    · rw [if_pos hpos] at hn
      simpa using hn.symm
  · intro hg
    have hcong : ∀ r ∈ dir,
        ((g :: us).contains r.username) = (us.contains r.username) := by
      intro r hr
      have : ¬ (r.username == g) = true := by
        simpa [beq_iff_eq] using hg r hr
      simp [List.contains_cons]
      intro habs
      exact absurd (by simpa [beq_iff_eq] using habs) (hg r hr)
    rw [List.filter_congr hcong]
  · intro h0
    have hnil : dir.filter (fun r => us.contains r.username) = [] :=
      List.length_eq_zero.mp h0
    have hall : ∀ r ∈ dir, ¬ (us.contains r.username) = true :=
      List.filter_eq_nil_iff.mp hnil
    have hself : dir.filter (fun r => !(us.contains r.username)) = dir := by
      apply List.filter_eq_self.mpr
      intro r hr
      simpa using hall r hr
    rw [hD, if_neg (by omega)]
    exact ⟨rfl, hself⟩
  · intro hpos
    rw [hD, if_pos hpos]

/-- Witness for C5 (amended): deleting `{alice, ghost}` from a directory
holding `alice` and `bob` removes one record and reports `deleted 1`. -/
theorem C5_witness :
    (deleteUsers [⟨"alice", "h1", 0⟩, ⟨"bob", "h2", 1⟩] []
      (some ["alice", "ghost"]) false).1 = .deleted 1 := by
  have h := C5_remove_exact [⟨"alice", "h1", 0⟩, ⟨"bob", "h2", 1⟩] []
    ["alice", "ghost"] "carol" false (by decide)
  have h2 := h.2.2.2.2 (by decide)
  exact h2.trans (by decide)

/-- C6: a successful broadcast sends `user_counts` carrying exactly the
directory count and the registry size to every connected socket —
including any triggering one — and (for distinct socket ids) exactly one
such event per socket. -/
theorem C6_broadcast_to_all (dir : List UserRec) (reg : List Conn) :
    (∀ c ∈ reg, (⟨c.cid, .counts dir.length reg.length⟩ : Event)
      ∈ broadcastUserCounts false dir reg) ∧
    (∀ e ∈ broadcastUserCounts false dir reg,
      e.payload = .counts dir.length reg.length) ∧
    ((reg.map Conn.cid).Nodup → ∀ c ∈ reg,
      ((broadcastUserCounts false dir reg).filter
        (fun e => e.target == c.cid)).length = 1) := by
  have hb : broadcastUserCounts false dir reg
      = reg.map (fun c2 => (⟨c2.cid, .counts dir.length reg.length⟩ : Event)) := by
    simp [broadcastUserCounts]
  refine ⟨?_, ?_, ?_⟩
  · intro c hc
    rw [hb]
    exact List.mem_map.mpr ⟨c, hc, rfl⟩
  · intro e he
    rw [hb] at he
    obtain ⟨c, hc, rfl⟩ := List.mem_map.mp he
    rfl
  · intro hnd c hc
    rw [hb, List.filter_map, List.length_map]
    have hcomp : ((fun e : Event => e.target == c.cid) ∘
        (fun c2 : Conn => (⟨c2.cid, .counts dir.length reg.length⟩ : Event)))
        = fun c2 : Conn => c2.cid == c.cid := rfl
    rw [hcomp]
    have hcount := List.count_eq_one_of_mem hnd (List.mem_map_of_mem Conn.cid hc)
    calc (reg.filter (fun c2 => c2.cid == c.cid)).length
        = reg.countP (fun c2 => c2.cid == c.cid) :=
          (List.countP_eq_length_filter _ _).symm
      _ = (reg.map Conn.cid).countP (fun x => x == c.cid) :=
          (List.countP_map (fun x => x == c.cid) Conn.cid reg).symm
      _ = 1 := by simpa [List.count] using hcount

/-- Witness for C6: with one registered user and two sockets, socket 5
receives exactly one `user_counts {registered := 1, online := 2}`. -/
theorem C6_witness :
    (⟨5, Payload.counts 1 2⟩ : Event)
      ∈ broadcastUserCounts false [⟨"alice", "h1", 0⟩] [⟨5, "alice"⟩, ⟨6, "bob"⟩] ∧
    ((broadcastUserCounts false [⟨"alice", "h1", 0⟩] [⟨5, "alice"⟩, ⟨6, "bob"⟩]).filter
      (fun e => e.target == 5)).length = 1 := by
  have h := C6_broadcast_to_all [⟨"alice", "h1", 0⟩] [⟨5, "alice"⟩, ⟨6, "bob"⟩]
  exact ⟨h.1 ⟨5, "alice"⟩ (by decide), h.2.2 (by decide) ⟨5, "alice"⟩ (by decide)⟩

/-- C7: when the count query behind a broadcast fails, no `user_counts`
event is emitted, and the failure never changes the route responses, the
resulting directory, or connection admission: every projection other than
the broadcast events is identical with and without the failure. -/
theorem C7_broadcast_failure_isolated (st : ServerState) (dir : List UserRec)
    (reg : List Conn) (cid : Nat) (token : Option String) (u h : Option String)
    (now : Nat) (us : Option (List String)) :
    broadcastUserCounts true dir reg = [] ∧
    (signup dir reg u h now true).1 = (signup dir reg u h now false).1 ∧
    (signup dir reg u h now true).2.1 = (signup dir reg u h now false).2.1 ∧
    (signup dir reg u h now true).2.2 = [] ∧
    (deleteUsers dir reg us true).1 = (deleteUsers dir reg us false).1 ∧
    (deleteUsers dir reg us true).2.1 = (deleteUsers dir reg us false).2.1 ∧
    (deleteUsers dir reg us true).2.2 = [] ∧
    (connect st cid token true).1 = (connect st cid token false).1 ∧
    ((connect st cid token true).2.filter (fun e => e.payload.isCounts)).length = 0 := by
  have hb : ∀ (d : List UserRec) (r : List Conn), broadcastUserCounts true d r = [] := by
    intro d r
    simp [broadcastUserCounts]
  have hsu : ∀ b, signup dir reg u h now b
      = (if strFalsy u || strFalsy h then (.missingFields, dir, [])
        else match findOneByUsername dir (u.getD "") with
          | some _ => (.duplicate, dir, [])
          | none => (.created, dir ++ [⟨u.getD "", h.getD "", now⟩],
              broadcastUserCounts b (dir ++ [⟨u.getD "", h.getD "", now⟩]) reg)) := by
    intro b
    simp [signup]
  refine ⟨hb dir reg, ?_, ?_, ?_, ?_, ?_, ?_, ?_, ?_⟩
  · rw [hsu true, hsu false]
    split
    · rfl
    · cases findOneByUsername dir (u.getD "") <;> rfl
  · rw [hsu true, hsu false]
    split
    · rfl
    · cases findOneByUsername dir (u.getD "") <;> rfl
  · rw [hsu true]
    split
    · rfl
    · cases findOneByUsername dir (u.getD "")
      · exact hb (dir ++ [⟨u.getD "", h.getD "", now⟩]) reg
      · rfl
  · unfold deleteUsers
    cases us with
    | none => rfl
    | some l =>
      simp only
      split
      · rfl
      · split <;> rfl
  · unfold deleteUsers
    cases us with
    | none => rfl
    | some l =>
      simp only
      split
      · rfl
      · split <;> rfl
  · unfold deleteUsers
    cases us with
    | none => rfl
    | some l =>
      simp only
      split
      · rfl
      · split
        · exact hb (dir.filter (fun r => !(l.contains r.username))) reg
        · rfl
  · unfold connect
    cases ioUseGate token <;> rfl
  · unfold connect
    cases ioUseGate token with
    | admitted t => simp [hb, Payload.isCounts]
    | rejected e => simp [Payload.isCounts]

/-- C8 counterexample: in the `src/server.js` revision the disconnect
handler calls `broadcastUserCounts()` with no delay, so a disconnect at
time 5 schedules its broadcast at time 5 itself, not one time unit
later — the claimed fixed ≈1-unit delay does not hold for every
disconnect in this repository. -/
theorem C8_counterexample :
    disconnectDelayMs_serverjs = 0 ∧
    (onDisconnect disconnectDelayMs_serverjs ⟨[], [⟨1, "alice"⟩]⟩ 1 5 []).2 = [5] ∧
    ¬ 5 < 5 := by
  refine ⟨rfl, ?_, by omega⟩
  decide

/-- C8 (amended): in the `part_000` revision every disconnect schedules
its broadcast exactly 1000 ms after the disconnect, strictly later than
the disconnect instant; in both revisions each disconnect appends its own
pending broadcast, so two disconnects inside the window yield two
broadcasts and never zero. -/
theorem C8_one_broadcast_per_disconnect (st st2 : ServerState) (c1 c2 t1 t2 d : Nat)
    (p : List Nat) :
    (onDisconnect disconnectDelayMs_part000 st c1 t1 p).2 = p ++ [t1 + 1000] ∧
    t1 < t1 + disconnectDelayMs_part000 ∧
    (onDisconnect d st c1 t1 p).2.length = p.length + 1 ∧
    (onDisconnect d st2 c2 t2 ((onDisconnect d st c1 t1 p).2)).2.length
      = p.length + 2 := by
  refine ⟨rfl, ?_, ?_, ?_⟩
  · simp [disconnectDelayMs_part000]
  · simp [onDisconnect]
  · simp [onDisconnect]

/-- C9: no operation mutates a stored record in place — signin leaves the
directory unchanged, a broadcast only reads the count, delete can only
drop records (every surviving record was already present), and signup
either leaves the directory alone or appends one fresh record while every
existing record survives. -/
theorem C9_records_never_mutated (dir : List UserRec) (reg : List Conn)
    (u h : Option String) (us : List String) (now : Nat) (bf : Bool) :
    (signin dir u h).2 = dir ∧
    (∀ e ∈ broadcastUserCounts bf dir reg,
      e.payload = .counts dir.length reg.length) ∧
    (∀ r ∈ (deleteUsers dir reg (some us) bf).2.1, r ∈ dir) ∧
    ((signup dir reg u h now bf).2.1 = dir ∨
      (signup dir reg u h now bf).2.1 = dir ++ [⟨u.getD "", h.getD "", now⟩]) ∧
    (∀ r ∈ dir, r ∈ (signup dir reg u h now bf).2.1) := by
  have hsu : (signup dir reg u h now bf).2.1 = dir ∨
      (signup dir reg u h now bf).2.1 = dir ++ [⟨u.getD "", h.getD "", now⟩] := by
    unfold signup
    split
    · exact Or.inl rfl
    · split
      · exact Or.inl rfl
      · exact Or.inr rfl
  refine ⟨?_, ?_, ?_, hsu, ?_⟩
  · unfold signin
    split
    · rfl
    · split <;> rfl
  · intro e he
    unfold broadcastUserCounts at he
    split at he
    · simp at he
    · obtain ⟨c, hc, rfl⟩ := List.mem_map.mp he
      rfl
  · intro r hr
    simp only [deleteUsers] at hr
    split at hr
    · exact hr
    · split at hr
      · exact (List.mem_filter.mp hr).1
      · exact (List.mem_filter.mp hr).1
  · intro r hr
    rcases hsu with hs | hs <;> rw [hs]
    · exact hr
    · exact List.mem_append_left _ hr

/-- Witness for C9: signin leaves a concrete directory unchanged and a
record surviving a delete was present beforehand. -/
theorem C9_witness :
    (signin [⟨"alice", "h1", 0⟩] (some "alice") (some "h1")).2 = [⟨"alice", "h1", 0⟩] ∧
    (⟨"bob", "h2", 1⟩ : UserRec) ∈ [(⟨"alice", "h1", 0⟩ : UserRec), ⟨"bob", "h2", 1⟩] := by
  have h1 := C9_records_never_mutated [⟨"alice", "h1", 0⟩] []
    (some "alice") (some "h1") ["x"] 0 false
  have h2 := C9_records_never_mutated [⟨"alice", "h1", 0⟩, ⟨"bob", "h2", 1⟩] []
    (some "a") (some "b") ["alice"] 0 false
  exact ⟨h1.1, h2.2.2.1 ⟨"bob", "h2", 1⟩ (by decide)⟩

/-- C10: a signup or signin request with an absent or empty username or
hash is answered with the 400 `missingFields` failure, the directory is
unchanged, no record is created or matched, and no broadcast is
triggered. -/
theorem C10_missing_fields_rejected (dir : List UserRec) (reg : List Conn)
    (u h : Option String) (now : Nat) (bf : Bool)
    (hmiss : strFalsy u = true ∨ strFalsy h = true) :
    (signup dir reg u h now bf).1 = .missingFields ∧
    (signup dir reg u h now bf).2.1 = dir ∧
    (signup dir reg u h now bf).2.2 = [] ∧
    (signin dir u h).1 = .missingFields ∧
    (signin dir u h).2 = dir ∧
    Resp.ok .missingFields = false ∧
    Resp.status .missingFields = 400 := by
  have hc : (strFalsy u || strFalsy h) = true := by
    rcases hmiss with h1 | h1 <;> simp [h1]
  refine ⟨?_, ?_, ?_, ?_, ?_, rfl, rfl⟩ <;> simp [signup, signin, hc]

/-- Witness for C10: an empty username and an absent username are both
rejected with `missingFields`. -/
theorem C10_witness :
    (signup [] [] (some "") (some "h1") 0 false).1 = .missingFields ∧
    (signin [] none (some "h1")).1 = .missingFields := by
  have h1 := C10_missing_fields_rejected [] [] (some "") (some "h1") 0 false
    (Or.inl (by decide))
  have h2 := C10_missing_fields_rejected [] [] none (some "h1") 0 false
    (Or.inl rfl)
  exact ⟨h1.1, h2.2.2.2.1⟩

end OneZeroMB
